import Mathlib

/-!
Verification development for a two-service video render backend.

The repository holds two small HTTP render services:

* an image-sequence renderer (src/backend/ffmpeg-renderer/index.js): it
  downloads N images into a per-request temp directory named from the
  current millisecond clock, builds an ffmpeg job that scales, pads and
  concatenates the images, streams the MP4 back, and removes the temp
  directory on every outcome;

* a text-overlay renderer (src/unnamed/part_000): it validates the
  request, skips the background download (a stub that only logs), runs
  ffmpeg with a drawtext filter interpolating the raw title, uploads to
  S3 and answers with a uniform success/error JSON envelope.

Both services are embedded below as pure functions over an explicit
environment (clock value, per-asset fetch outcomes, encoder outcome,
storage outcome), recording the HTTP response, the composed ffmpeg job,
the filesystem paths used and the files left behind.
-/

namespace Render

/-- A JSON response body as produced by res.json in either service.
Fields that a given call site does not set are recorded as none. -/
structure JsonBody where
  success : Option Bool
  error : Option String
  videoUrl : Option String
  deriving DecidableEq, Repr

/-- An HTTP response: a JSON body with a status code, or a raw MP4 byte
stream (the image-sequence service streams the file back). -/
inductive HttpResp where
  | json (status : Nat) (body : JsonBody)
  | mp4Stream
  deriving DecidableEq, Repr

/-- The ffmpeg job description composed by either service: inputs with an
optional per-input loop duration, the complexFilter argument list, the
stream mapped to the output, codecs, output options and output path. -/
structure FfmpegJob where
  inputs : List (String × Option Nat)
  complexFilter : List String
  mapLabel : Option String
  videoCodec : Option String
  audioCodec : Option String
  outputOptions : List String
  outputPath : String
  deriving DecidableEq, Repr

/-! ## Image-sequence service (src/backend/ffmpeg-renderer/index.js) -/

/-- workDir: path.join of the module directory with the string temp-
followed by Date.now rendered in decimal. -/
def workDir (now : Nat) : String :=
  "__dirname/temp-" ++ toString now

/-- Path of the i-th downloaded image inside the work directory. -/
def imagePath (wd : String) (i : Nat) : String :=
  wd ++ "/image-" ++ toString i ++ ".jpg"

/-- The scale-and-pad filter entry generated for input i, ending with a
semicolon exactly as in the template literal of the source. -/
def scalePadFilter (i : Nat) : String :=
  "[" ++ toString i ++ ":v]scale=1080:1920:force_original_aspect_ratio=decrease,pad=1080:1920:(ow-iw)/2:(oh-ih)/2[v" ++ toString i ++ "];"

/-- The intermediate stream label for input i. -/
def streamLabel (i : Nat) : String :=
  "[v" ++ toString i ++ "]"

/-- The concat filter entry: all intermediate labels in input order,
then concat with n set to the image count, video only. -/
def concatFilter (n : Nat) : String :=
  String.join ((List.range n).map streamLabel) ++ "concat=n=" ++ toString n ++ ":v=1:a=0[v]"

/-- The JS array literal spreads the joined scale-and-pad string with the
spread operator, which iterates a string into its single-character code
points; each character becomes its own element of the filter array. -/
def spreadChars (s : String) : List String :=
  s.data.map (fun c => String.mk [c])

/-- The complexFilter array passed by the image-sequence service. -/
def imageSeqComplexFilter (n : Nat) : List String :=
  spreadChars (String.join ((List.range n).map scalePadFilter)) ++ [concatFilter n]

/-- The full ffmpeg job composed by the image-sequence service: each
input looped for 3 seconds, libx264 video, no audio codec, yuv420p,
declared duration 3 times the image count, ultrafast preset. -/
def imageSeqJob (imagePaths : List String) (outPath : String) : FfmpegJob :=
  { inputs := imagePaths.map (fun p => (p, some 3))
    complexFilter := imageSeqComplexFilter imagePaths.length
    mapLabel := some "[v]"
    videoCodec := some "libx264"
    audioCodec := none
    outputOptions :=
      ["-pix_fmt yuv420p", "-t " ++ toString (imagePaths.length * 3), "-preset ultrafast"]
    outputPath := outPath }

/-- The error message thrown when the fetch of image i is not ok. -/
def fetchFailMsg (i : Nat) : String :=
  "Failed to fetch image " ++ toString i

/-- The download loop of the image-sequence service, from input index i
with k images remaining: on each iteration it fetches the next image,
throws on a non-ok response (fail fast) and otherwise writes the file.
Returns the files created on disk together with either the collected
image paths or the first thrown error message. -/
def downloadGo (ok : Nat → Bool) (wd : String) (i : Nat) :
    Nat → List String × Except String (List String)
  | 0 => ([], Except.ok [])
  | k + 1 =>
    if ok i then
      let r := downloadGo ok wd (i + 1) k
      (imagePath wd i :: r.1,
        match r.2 with
        | Except.ok l => Except.ok (imagePath wd i :: l)
        | Except.error e => Except.error e)
    else ([], Except.error (fetchFailMsg i))

/-- The whole download loop over n images starting at index 0. -/
def downloadImages (ok : Nat → Bool) (wd : String) (n : Nat) :
    List String × Except String (List String) :=
  downloadGo ok wd 0 n

/-- Boolean test that the first list is a leading segment of the second,
used to model recursive removal of a directory subtree. -/
def listPre : List Char → List Char → Bool
  | [], _ => true
  | _ :: _, [] => false
  | a :: as, b :: bs => a == b && listPre as bs

/-- fs.rmSync with recursive force: removes from the file list every path
lying under the given directory path. -/
def rmRec (files : List String) (dir : String) : List String :=
  files.filter (fun p => !(listPre dir.data p.data))

/-- Environment of one image-sequence request: the Date.now value, the
per-index fetch outcome, and the encoder outcome (ok from the end event,
or the error message from the error event). -/
structure SeqEnv where
  now : Nat
  fetchOk : Nat → Bool
  encode : Except String Unit

/-- Request body of the image-sequence service; captions are accepted
but never read by the handler. -/
structure ImageSeqRequest where
  images : Option (List String)
  captions : Option (List String)
  deriving DecidableEq, Repr

/-- Observable outcome of one image-sequence request: the HTTP response,
whether ffmpeg was run, the job that was composed (if any), the work
directory the handler bound, and the files surviving the request. -/
structure SeqOutcome where
  response : HttpResp
  encodeAttempted : Bool
  job : Option FfmpegJob
  usedWorkDir : String
  leftover : List String
  deriving DecidableEq, Repr

/-- The /render handler of the image-sequence service. Missing or empty
images answer 400 before any file is created; a failed fetch throws into
the catch block, which answers 500 and removes the work directory; after
an encode outcome the file is streamed (or the error reported) and the
work directory is removed recursively. -/
def seqPipeline (env : SeqEnv) (req : ImageSeqRequest) : SeqOutcome :=
  let wd := workDir env.now
  let imgs := req.images.getD []
  if imgs.length = 0 then
    { response := HttpResp.json 400 ⟨none, some "No images provided", none⟩
      encodeAttempted := false
      job := none
      usedWorkDir := wd
      leftover := [] }
  else
    let dl := downloadImages env.fetchOk wd imgs.length
    let created := wd :: dl.1
    match dl.2 with
    | Except.error msg =>
      { response := HttpResp.json 500 ⟨none, some msg, none⟩
        encodeAttempted := false
        job := none
        usedWorkDir := wd
        leftover := rmRec created wd }
    | Except.ok paths =>
      let outPath := wd ++ "/output.mp4"
      let job := imageSeqJob paths outPath
      match env.encode with
      | Except.error msg =>
        { response := HttpResp.json 500 ⟨none, some msg, none⟩
          encodeAttempted := true
          job := some job
          usedWorkDir := wd
          leftover := rmRec (created ++ [outPath]) wd }
      | Except.ok _ =>
        { response := HttpResp.mp4Stream
          encodeAttempted := true
          job := some job
          usedWorkDir := wd
          leftover := rmRec (created ++ [outPath]) wd }

/-! ## Text-overlay service (src/unnamed/part_000) -/

/-- The shared temp directory created once at module load. -/
def TMP_DIR : String :=
  "__dirname/temp"

/-- The background video path: one fixed file name inside the shared
temp directory, the same for every request. -/
def bgVideoPath : String :=
  TMP_DIR ++ "/bg.mp4"

/-- Output file name derived from the request videoId. -/
def outputFileName (videoId : String) : String :=
  videoId ++ "-final-video.mp4"

/-- Output path inside the shared temp directory. -/
def overlayOutputPath (videoId : String) : String :=
  TMP_DIR ++ "/" ++ outputFileName videoId

/-- JS template-literal rendering of a possibly absent string field: an
undefined field interpolates as the text undefined. -/
def jsString : Option String → String
  | none => "undefined"
  | some s => s

/-- JS truthiness of a string field: absent and empty are falsy. -/
def truthy : Option String → Bool
  | none => false
  | some s => !s.isEmpty

/-- The single-quote character, written by code point. -/
def quoteChar : Char :=
  Char.ofNat 39

/-- The drawtext filter value built by the template literal of the
source: the raw title is interpolated between two single quotes with no
escaping of any kind. -/
def drawtextFilter (title : String) : String :=
  "drawtext=text=\x27" ++ title ++ "\x27:fontsize=50:fontcolor=white:x=(w-text_w)/2:y=h-th-50:box=1:boxcolor=black@0.5:boxborderw=10"

/-- The ffmpeg job composed by the text-overlay service: one input (the
background path), libx264 video, aac audio, the drawtext filter passed
through -vf, and yuv420p. -/
def overlayJob (title : String) (bgPath outPath : String) : FfmpegJob :=
  { inputs := [(bgPath, none)]
    complexFilter := []
    mapLabel := none
    videoCodec := some "libx264"
    audioCodec := some "aac"
    outputOptions := ["-vf " ++ drawtextFilter title, "-pix_fmt yuv420p"]
    outputPath := outPath }

/-- Request body of the text-overlay service. -/
structure TextOverlayRequest where
  title : Option String
  backgroundVideoUrl : Option String
  videoId : Option String
  deriving DecidableEq, Repr

/-- Environment of one text-overlay request: the encoder outcome, the S3
upload outcome (location URL on success), and the size the declared
output file has once the encoder reports completion.  The handler never
reads the size; it is recorded so that truncation scenarios can be
expressed. -/
structure OverlayEnv where
  encode : Except String Unit
  s3 : Except String String
  outputFileSize : Nat
  deriving Repr

/-- Observable outcome of one text-overlay request: the HTTP response,
whether any network fetch of the background video was issued, the
composed job (if composition was reached), the background and output
paths the handler bound, the files it created, and the files surviving
the request. -/
structure OverlayOutcome where
  response : HttpResp
  fetchIssued : Bool
  job : Option FfmpegJob
  usedBgPath : Option String
  usedOutputPath : Option String
  filesCreated : List String
  leftover : List String
  deriving DecidableEq, Repr

/-- The /render handler of the text-overlay service. Validation answers
400 with the uniform envelope; the download step is a stub that only
logs, so no fetch is issued and bg.mp4 is never written; an encode error
rejects with the wrapped diagnostic and the catch block answers 500; on
encode completion the output file exists and is uploaded; on upload
success the output file is unlinked and the location URL returned; on
upload failure the catch block answers 500 without removing the output
file. -/
def overlayPipeline (env : OverlayEnv) (req : TextOverlayRequest) : OverlayOutcome :=
  if !truthy req.backgroundVideoUrl || !truthy req.videoId then
    { response :=
        HttpResp.json 400 ⟨some false, some "Missing background video URL or videoId.", none⟩
      fetchIssued := false
      job := none
      usedBgPath := none
      usedOutputPath := none
      filesCreated := []
      leftover := [] }
  else
    let outPath := overlayOutputPath (jsString req.videoId)
    let job := overlayJob (jsString req.title) bgVideoPath outPath
    match env.encode with
    | Except.error msg =>
      { response :=
          HttpResp.json 500
            ⟨some false, some ("Video rendering failed: FFmpeg failed: " ++ msg), none⟩
        fetchIssued := false
        job := some job
        usedBgPath := some bgVideoPath
        usedOutputPath := some outPath
        filesCreated := []
        leftover := [] }
    | Except.ok _ =>
      match env.s3 with
      | Except.error msg =>
        { response :=
            HttpResp.json 500 ⟨some false, some ("Video rendering failed: " ++ msg), none⟩
          fetchIssued := false
          job := some job
          usedBgPath := some bgVideoPath
          usedOutputPath := some outPath
          filesCreated := [outPath]
          leftover := [outPath] }
      | Except.ok loc =>
        { response := HttpResp.json 200 ⟨some true, none, some loc⟩
          fetchIssued := false
          job := some job
          usedBgPath := some bgVideoPath
          usedOutputPath := some outPath
          filesCreated := [outPath]
          leftover := [] }

/-! ## Claim-side auxiliary definitions -/

/-- Characters of a quoted ffmpeg filter argument: everything up to the
first single quote, which terminates the argument. -/
def takeUntilQuote : List Char → List Char
  | [] => []
  | c :: cs => if c = quoteChar then [] else c :: takeUntilQuote cs

/-- The fixed text of the filter up to and including the opening quote. -/
def drawtextOpening : String :=
  "drawtext=text=\x27"

/-- What an ffmpeg filter parser reads as the text argument of the
composed drawtext filter: the characters between the opening quote and
the next quote. -/
def drawtextTextField (filter : String) : Option String :=
  if listPre drawtextOpening.data filter.data then
    some (String.mk (takeUntilQuote (filter.data.drop drawtextOpening.data.length)))
  else none

/-- Modelled from the spec: a concat node referencing the N scaled
streams in ascending ordinal order, with n set to N, video only. -/
def orderedConcatNode (n : Nat) : String :=
  String.join ((List.range n).map (fun i => "[v" ++ toString i ++ "]")) ++
    "concat=n=" ++ toString n ++ ":v=1:a=0[v]"

/-- Boolean substring test on character lists. -/
def hasSub (pat : List Char) : List Char → Bool
  | [] => listPre pat []
  | c :: cs => listPre pat (c :: cs) || hasSub pat cs

/-! ## Concrete fixtures shared by several theorems -/

/-- A valid text-overlay request, as in scenario A of the spec. -/
def reqHello : TextOverlayRequest :=
  ⟨some "Hello", some "https://x/bg.mp4", some "v1"⟩

/-- A second valid text-overlay request with a different title and id. -/
def reqWorld : TextOverlayRequest :=
  ⟨some "World", some "https://x/bg2.mp4", some "v2"⟩

/-- Overlay environment where every stage succeeds. -/
def envOk : OverlayEnv :=
  ⟨Except.ok (), Except.ok "https://bucket/v1-final-video.mp4", 100⟩

/-- Overlay environment where the upload is rejected. -/
def envPubFail : OverlayEnv :=
  ⟨Except.ok (), Except.error "Access Denied", 100⟩

/-- Overlay environment where the encoder reports completion but the
declared output file has size zero. -/
def envEmptyOut : OverlayEnv :=
  ⟨Except.ok (), Except.ok "https://bucket/v1-final-video.mp4", 0⟩

/-- Overlay environment where the encoder reports an error event. -/
def envEncFail : OverlayEnv :=
  ⟨Except.error "exit code 1", Except.ok "https://bucket/v1-final-video.mp4", 100⟩

/-- Image-sequence environment where every stage succeeds. -/
def seqEnvOk : SeqEnv :=
  ⟨1111, fun _ => true, Except.ok ()⟩

/-- Image-sequence environment at a later clock value whose encoder
fails, for comparing two runs of the same request. -/
def seqEnvLater : SeqEnv :=
  ⟨2222, fun _ => true, Except.error "ffmpeg exited with code 1"⟩

/-- Image-sequence environment where the fetch of image 1 and later
images answer a non-success status. -/
def seqEnvFetch404 : SeqEnv :=
  ⟨1111, fun i => i == 0, Except.ok ()⟩

/-- An image-sequence request with two images. -/
def seqReqAB : ImageSeqRequest :=
  ⟨some ["https://x/a.jpg", "https://x/b.jpg"], some ["one", "two"]⟩

/-- An image-sequence request with two other images. -/
def seqReqCD : ImageSeqRequest :=
  ⟨some ["https://x/c.jpg", "https://x/d.jpg"], some ["three", "four"]⟩

/-- An image-sequence request with three images, as in scenario B. -/
def seqReqABC : ImageSeqRequest :=
  ⟨some ["https://x/a.jpg", "https://x/b.jpg", "https://x/c.jpg"], some ["one", "two", "three"]⟩

/-! ## Helper lemmas about listPre, hasSub and rmRec -/

theorem listPre_append_self (l t : List Char) : listPre l (l ++ t) = true := by
  induction l with
  | nil => rfl
  | cons a as ih => simp [listPre, ih]

theorem listPre_length_le :
    ∀ (p l : List Char), listPre p l = true → p.length ≤ l.length := by
  intro p
  induction p with
  | nil => intro l _; exact Nat.zero_le _
  | cons a as ih =>
    intro l h
    cases l with
    | nil => simp [listPre] at h
    | cons b bs =>
      simp only [listPre, Bool.and_eq_true] at h
      simpa using Nat.succ_le_succ (ih bs h.2)

theorem hasSub_of_split (pat : List Char) :
    ∀ (pre suf l : List Char), l = pre ++ pat ++ suf → hasSub pat l = true := by
  intro pre
  induction pre with
  | nil =>
    intro suf l hl
    subst hl
    cases hp : pat ++ suf with
    | nil =>
      have hpat : pat = [] := by
        cases pat with
        | nil => rfl
        | cons a as => simp at hp
      have hsuf : suf = [] := by simpa [hpat] using hp
      simp [hpat, hsuf, hasSub, listPre]
    | cons c cs =>
      have h1 : listPre pat (pat ++ suf) = true := listPre_append_self pat suf
      simp only [List.nil_append]
      rw [hp] at h1 ⊢
      simp [hasSub, h1]
  | cons p ps ih =>
    intro suf l hl
    subst hl
    have hrec := ih suf (ps ++ pat ++ suf) rfl
    simp only [List.append_assoc] at hrec
    simp only [List.cons_append]
    simp [hasSub, hrec]

theorem hasSub_eq_false_of_lt :
    ∀ (l pat : List Char), l.length < pat.length → hasSub pat l = false := by
  intro l
  induction l with
  | nil =>
    intro pat h
    cases pat with
    | nil => simp at h
    | cons a as => simp [hasSub, listPre]
  | cons c cs ih =>
    intro pat h
    have h1 : listPre pat (c :: cs) = false := by
      cases hp : listPre pat (c :: cs) with
      | false => rfl
      | true =>
        have := listPre_length_le pat (c :: cs) hp
        omega
    have h2 : hasSub pat cs = false := by
      apply ih
      simp only [List.length_cons] at h
      omega
    simp [hasSub, h1, h2]

theorem rmRec_eq_nil (files : List String) (dir : String)
    (h : ∀ p ∈ files, listPre dir.data p.data = true) : rmRec files dir = [] := by
  simp only [rmRec, List.filter_eq_nil_iff]
  intro p hp
  simp [h p hp]

/-! ## Decimal representation: a left inverse for Nat.repr -/

/-- Numeric value of a decimal digit character. -/
def digitVal (c : Char) : Nat :=
  c.toNat - 48

/-- Value of a list of decimal digit characters, most significant
first. -/
def parseVal (l : List Char) : Nat :=
  l.foldl (fun a c => 10 * a + digitVal c) 0

theorem foldl_digit_shift (l : List Char) :
    ∀ a : Nat, l.foldl (fun a c => 10 * a + digitVal c) a = a * 10 ^ l.length + parseVal l := by
  induction l with
  | nil => intro a; simp [parseVal]
  | cons c cs ih =>
    intro a
    have h1 := ih (10 * a + digitVal c)
    have h2 := ih (digitVal c)
    simp only [List.foldl_cons, List.length_cons]
    rw [h1]
    have hv : parseVal (c :: cs) = digitVal c * 10 ^ cs.length + parseVal cs := by
      simpa [parseVal] using h2
    rw [hv, pow_succ]
    ring

theorem digitVal_digitChar (m : Nat) (h : m < 10) :
    digitVal (Nat.digitChar m) = m := by
  interval_cases m <;> rfl

theorem toDigitsCore_succ (fuel n : Nat) (ds : List Char) :
    Nat.toDigitsCore 10 (fuel + 1) n ds =
      if n / 10 = 0 then Nat.digitChar (n % 10) :: ds
      else Nat.toDigitsCore 10 fuel (n / 10) (Nat.digitChar (n % 10) :: ds) := by
  rfl

theorem parseVal_toDigitsCore :
    ∀ (fuel n : Nat) (ds : List Char), n < fuel →
      parseVal (Nat.toDigitsCore 10 fuel n ds) = n * 10 ^ ds.length + parseVal ds := by
  intro fuel
  induction fuel with
  | zero => intro n ds h; omega
  | succ fuel ih =>
    intro n ds h
    rw [toDigitsCore_succ]
    by_cases h0 : n / 10 = 0
    · have hn : n < 10 := by omega
      have hm : n % 10 = n := Nat.mod_eq_of_lt hn
      rw [if_pos h0]
      have := foldl_digit_shift ds (digitVal (Nat.digitChar (n % 10)))
      calc parseVal (Nat.digitChar (n % 10) :: ds)
          = ds.foldl (fun a c => 10 * a + digitVal c) (digitVal (Nat.digitChar (n % 10))) := by
            simp [parseVal]
        _ = n * 10 ^ ds.length + parseVal ds := by
            rw [this, digitVal_digitChar _ (Nat.mod_lt _ (by omega)), hm]
    · have hpos : 0 < n := by
        rcases Nat.eq_zero_or_pos n with h' | h'
        · subst h'; simp at h0
        · exact h'
      have hlt : n / 10 < fuel := by
        have : n / 10 < n := Nat.div_lt_self hpos (by omega)
        omega
      rw [if_neg h0]
      rw [ih (n / 10) (Nat.digitChar (n % 10) :: ds) hlt]
      have hv : parseVal (Nat.digitChar (n % 10) :: ds)
          = (n % 10) * 10 ^ ds.length + parseVal ds := by
        have hs := foldl_digit_shift ds (digitVal (Nat.digitChar (n % 10)))
        calc parseVal (Nat.digitChar (n % 10) :: ds)
            = ds.foldl (fun a c => 10 * a + digitVal c) (digitVal (Nat.digitChar (n % 10))) := by
              simp [parseVal]
          _ = (n % 10) * 10 ^ ds.length + parseVal ds := by
              rw [hs, digitVal_digitChar _ (Nat.mod_lt _ (by omega))]
      rw [hv]
      simp only [List.length_cons]
      have hdm := Nat.div_add_mod n 10
      have hkey : n / 10 * 10 ^ (ds.length + 1) + (n % 10) * 10 ^ ds.length
          = n * 10 ^ ds.length := by
        calc n / 10 * 10 ^ (ds.length + 1) + (n % 10) * 10 ^ ds.length
            = (10 * (n / 10) + n % 10) * 10 ^ ds.length := by rw [pow_succ]; ring
          _ = n * 10 ^ ds.length := by rw [hdm]
      omega

theorem parseVal_repr (n : Nat) : parseVal (Nat.repr n).data = n := by
  have h := parseVal_toDigitsCore (n + 1) n [] (Nat.lt_succ_self n)
  simpa [Nat.repr, Nat.toDigits, List.asString, parseVal] using h

theorem workDir_inj {t1 t2 : Nat} (h : workDir t1 = workDir t2) : t1 = t2 := by
  have hd := congrArg String.data h
  simp only [workDir, String.data_append] at hd
  have h2 : (toString t1).data = (toString t2).data := List.append_cancel_left hd
  have ht : ∀ n : Nat, toString n = Nat.repr n := fun _ => rfl
  rw [ht, ht] at h2
  have h3 := congrArg parseVal h2
  rwa [parseVal_repr, parseVal_repr] at h3

/-! ## Helper lemmas about the download loop and cleanup -/

theorem downloadGo_files (ok : Nat → Bool) (wd : String) :
    ∀ (k i : Nat), ∀ p ∈ (downloadGo ok wd i k).1, ∃ j, p = imagePath wd j := by
  intro k
  induction k with
  | zero => intro i p hp; simp [downloadGo] at hp
  | succ k ih =>
    intro i p hp
    by_cases h : ok i
    · simp only [downloadGo, h, if_true] at hp
      rcases List.mem_cons.mp hp with h1 | h1
      · exact ⟨i, h1⟩
      · exact ih (i + 1) p h1
    · simp [downloadGo, h] at hp

theorem downloadGo_ok_length (ok : Nat → Bool) (wd : String) :
    ∀ (k i : Nat) (l : List String),
      (downloadGo ok wd i k).2 = Except.ok l → l.length = k := by
  intro k
  induction k with
  | zero =>
    intro i l h
    simp only [downloadGo] at h
    cases h
    rfl
  | succ k ih =>
    intro i l h
    by_cases hok : ok i
    · simp only [downloadGo, hok, if_true] at h
      rcases hr : (downloadGo ok wd (i + 1) k).2 with e | l'
      · rw [hr] at h; simp at h
      · rw [hr] at h
        simp only [Except.ok.injEq] at h
        have hlen := ih (i + 1) l' hr
        rw [← h]
        simp [hlen]
    · simp [downloadGo, hok] at h

theorem downloadGo_error_of_bad (ok : Nat → Bool) (wd : String) :
    ∀ (k i : Nat), (∃ j, j < k ∧ ok (i + j) = false) →
      ∃ j, j < k ∧ ok (i + j) = false ∧
        (downloadGo ok wd i k).2 = Except.error (fetchFailMsg (i + j)) := by
  intro k
  induction k with
  | zero =>
    rintro i ⟨j, hj, _⟩
    omega
  | succ k ih =>
    rintro i ⟨j, hj, hbad⟩
    by_cases hok : ok i
    · have hj0 : j ≠ 0 := by
        intro h0
        subst h0
        rw [Nat.add_zero] at hbad
        rw [hbad] at hok
        exact absurd hok (by simp)
      obtain ⟨j', rfl⟩ := Nat.exists_eq_succ_of_ne_zero hj0
      have hbad' : ok (i + 1 + j') = false := by
        have : i + 1 + j' = i + (j' + 1) := by omega
        rw [this]
        exact hbad
      obtain ⟨j'', hj'', hbad'', heq⟩ := ih (i + 1) ⟨j', by omega, hbad'⟩
      refine ⟨j'' + 1, by omega, ?_, ?_⟩
      · have : i + (j'' + 1) = i + 1 + j'' := by omega
        rw [this]
        exact hbad''
      · simp only [downloadGo, hok, if_true]
        rw [heq]
        have : i + (j'' + 1) = i + 1 + j'' := by omega
        rw [this]
    · refine ⟨0, by omega, by simpa using hok, ?_⟩
      simp [downloadGo, hok, Nat.add_zero]

theorem listPre_data_self (s : String) : listPre s.data s.data = true := by
  simpa using listPre_append_self s.data []

theorem listPre_data_append (s t : String) : listPre s.data (s ++ t).data = true := by
  simp only [String.data_append]
  exact listPre_append_self _ _

theorem listPre_data_imagePath (wd : String) (j : Nat) :
    listPre wd.data (imagePath wd j).data = true := by
  simp only [imagePath, String.data_append, List.append_assoc]
  exact listPre_append_self _ _

theorem seq_leftover_nil (env : SeqEnv) (req : ImageSeqRequest) :
    (seqPipeline env req).leftover = [] := by
  have hfiles := downloadGo_files env.fetchOk (workDir env.now)
  simp only [seqPipeline, downloadImages]
  split
  · rfl
  · split
    · apply rmRec_eq_nil
      intro p hp
      rcases List.mem_cons.mp hp with rfl | hp
      · exact listPre_data_self _
      · obtain ⟨j, rfl⟩ := hfiles _ _ p hp
        exact listPre_data_imagePath _ _
    · split <;>
      · apply rmRec_eq_nil
        intro p hp
        rcases List.mem_append.mp hp with hp | hp
        · rcases List.mem_cons.mp hp with rfl | hp
          · exact listPre_data_self _
          · obtain ⟨j, rfl⟩ := hfiles _ _ p hp
            exact listPre_data_imagePath _ _
        · rcases List.mem_singleton.mp hp with rfl
          exact listPre_data_append _ _

/-! ## Claim C1: workspace cleanup on every exit path -/

/-- Claim C1 counterexample: a valid text-overlay request whose encode
succeeds and whose publish is rejected leaves the rendered output file
in the shared temp directory, so transient state does survive an exit
path of the pipeline. -/
theorem c1_cleanup_counterexample :
    (overlayPipeline envPubFail reqHello).leftover = ["__dirname/temp/v1-final-video.mp4"] ∧
    (overlayPipeline envPubFail reqHello).leftover ≠ [] := by
  decide

/-- Claim C1 amended: the image-sequence pipeline removes its workspace
directory and all files under it on every outcome; the text-overlay
pipeline leaves no per-request file behind except on the publish-failure
path, where the rendered output file survives (its download step is a
stub, so no other transient file is ever created). -/
theorem c1_cleanup_amended :
    (∀ (env : SeqEnv) (req : ImageSeqRequest), (seqPipeline env req).leftover = []) ∧
    (∀ (env : OverlayEnv) (req : TextOverlayRequest),
      ((overlayPipeline env req).leftover = [] ↔
        ¬(truthy req.backgroundVideoUrl = true ∧ truthy req.videoId = true ∧
          env.encode = Except.ok () ∧ ∃ e, env.s3 = Except.error e))) := by
  constructor
  · exact seq_leftover_nil
  · intro env req
    simp only [overlayPipeline]
    split
    next h =>
      constructor
      · rintro - ⟨hb, hv, -, -⟩
        rw [hb, hv] at h
        simp at h
      · intro _
        rfl
    next h =>
      have hb : truthy req.backgroundVideoUrl = true ∧ truthy req.videoId = true := by
        revert h
        cases truthy req.backgroundVideoUrl <;> cases truthy req.videoId <;> simp
      rcases henc : env.encode with msg | u
      · simp [henc]
      · rcases hs3 : env.s3 with msg | loc
        · simp [henc, hs3, hb.1, hb.2, overlayOutputPath]
        · simp [henc, hs3]

/-- Claim C1 amended witness at a concrete request and environment. -/
theorem c1_cleanup_amended_witness :
    (seqPipeline seqEnvOk seqReqAB).leftover = [] :=
  c1_cleanup_amended.1 seqEnvOk seqReqAB

/-! ## Claim C2: caption escaping in the drawtext filter -/

/-- Claim C2: the source interpolates the raw caption into the drawtext
filter with no escaping, so a caption containing a single quote
terminates the quoted text argument early.  At the failing caption the
composed filter carries the caption verbatim and a filter parser reads
the truncated text argument, not the caption. -/
theorem c2_unescaped_caption :
    drawtextFilter "it\x27s" =
      "drawtext=text=\x27it\x27s\x27:fontsize=50:fontcolor=white:x=(w-text_w)/2:y=h-th-50:box=1:boxcolor=black@0.5:boxborderw=10" ∧
    drawtextTextField (drawtextFilter "it\x27s") = some "it" ∧
    some "it" ≠ some ("it\x27s" : String) := by
  refine ⟨by decide, by decide, by decide⟩

/-! ## Claim C3: workspace path uniqueness across concurrent requests -/

/-- Claim C3 counterexample: two distinct image-sequence requests handled
at the same millisecond clock value are bound to the same workspace
directory, and two distinct text-overlay requests share the single
background-video path of the shared temp directory. -/
theorem c3_collision_counterexample :
    seqReqAB ≠ seqReqCD ∧
    (seqPipeline seqEnvOk seqReqAB).usedWorkDir = (seqPipeline seqEnvOk seqReqCD).usedWorkDir ∧
    reqHello ≠ reqWorld ∧
    (overlayPipeline envOk reqHello).usedBgPath = some bgVideoPath ∧
    (overlayPipeline envOk reqWorld).usedBgPath = some bgVideoPath := by
  decide

/-- Claim C3 amended: image-sequence workspace directories are distinct
exactly when the Date.now values of the two requests differ, and every
text-overlay request that reaches the download step is bound to one and
the same background-video path. -/
theorem c3_collision_amended :
    (∀ t1 t2 : Nat, workDir t1 = workDir t2 ↔ t1 = t2) ∧
    (∀ (e1 e2 : OverlayEnv) (r1 r2 : TextOverlayRequest) (p1 p2 : String),
      (overlayPipeline e1 r1).usedBgPath = some p1 →
      (overlayPipeline e2 r2).usedBgPath = some p2 → p1 = p2) := by
  constructor
  · intro t1 t2
    exact ⟨workDir_inj, fun h => by rw [h]⟩
  · have hbg : ∀ (e : OverlayEnv) (r : TextOverlayRequest) (p : String),
        (overlayPipeline e r).usedBgPath = some p → p = bgVideoPath := by
      intro e r p h
      simp only [overlayPipeline] at h
      split at h
      · simp at h
      · split at h
        · simp only [Option.some.injEq] at h
          exact h.symm
        · split at h <;> (simp only [Option.some.injEq] at h; exact h.symm)
    intro e1 e2 r1 r2 p1 p2 h1 h2
    rw [hbg e1 r1 p1 h1, hbg e2 r2 p2 h2]

/-- Claim C3 amended witness: two concrete text-overlay requests resolve
to the same background path. -/
theorem c3_collision_amended_witness :
    ("__dirname/temp/bg.mp4" : String) = "__dirname/temp/bg.mp4" :=
  c3_collision_amended.2 envOk envPubFail reqHello reqWorld
    "__dirname/temp/bg.mp4" "__dirname/temp/bg.mp4" (by decide) (by decide)

/-! ## Claim C4: encode success conditions -/

/-- Claim C4 counterexample: the encoder reports completion while the
declared output file has size zero, yet the pipeline still resolves to a
success response — no existence or size check is performed. -/
theorem c4_truncation_counterexample :
    envEmptyOut.outputFileSize = 0 ∧
    (overlayPipeline envEmptyOut reqHello).response =
      HttpResp.json 200 ⟨some true, none, some "https://bucket/v1-final-video.mp4"⟩ := by
  decide

/-- Claim C4 amended: for a valid request, an error-reporting encoder
always yields a failure response carrying the diagnostic text and never
a success response; a success response occurs exactly on encoder
completion plus upload success, with no output-file existence or size
check of any kind. -/
theorem c4_encode_amended (env : OverlayEnv) (req : TextOverlayRequest)
    (hb : truthy req.backgroundVideoUrl = true) (hv : truthy req.videoId = true) :
    (∀ msg, env.encode = Except.error msg →
      (overlayPipeline env req).response =
        HttpResp.json 500
          ⟨some false, some ("Video rendering failed: FFmpeg failed: " ++ msg), none⟩) ∧
    (∀ st b, (overlayPipeline env req).response = HttpResp.json st b →
      b.success = some true →
      env.encode = Except.ok () ∧ ∃ loc, env.s3 = Except.ok loc ∧ b.videoUrl = some loc) := by
  constructor
  · intro msg hmsg
    simp [overlayPipeline, hb, hv, hmsg]
  · intro st b hresp hsucc
    simp only [overlayPipeline] at hresp
    split at hresp
    next h =>
      rw [hb, hv] at h
      simp at h
    next h =>
      rcases henc : env.encode with msg | u
      · rw [henc] at hresp
        simp only [HttpResp.json.injEq] at hresp
        rw [← hresp.2] at hsucc
        simp at hsucc
      · rw [henc] at hresp
        rcases hs3 : env.s3 with msg | loc
        · rw [hs3] at hresp
          simp only [HttpResp.json.injEq] at hresp
          rw [← hresp.2] at hsucc
          simp at hsucc
        · rw [hs3] at hresp
          simp only [HttpResp.json.injEq] at hresp
          refine ⟨rfl, loc, rfl, ?_⟩
          rw [← hresp.2]

/-- Claim C4 amended witness: a concrete failing encoder yields the 500
response carrying its diagnostic. -/
theorem c4_encode_amended_witness :
    (overlayPipeline envEncFail reqHello).response =
      HttpResp.json 500
        ⟨some false, some ("Video rendering failed: FFmpeg failed: " ++ "exit code 1"), none⟩ :=
  (c4_encode_amended envEncFail reqHello (by decide) (by decide)).1 "exit code 1" rfl

/-! ## Claim C5: declared duration and the concat node -/

theorem mem_spreadChars_length {s : String} {x : String} (hx : x ∈ spreadChars s) :
    x.data.length = 1 := by
  simp only [spreadChars, List.mem_map] at hx
  obtain ⟨c, -, rfl⟩ := hx
  rfl

theorem hasSub_concatFilter (n : Nat) :
    hasSub ("concat" : String).data (concatFilter n).data = true := by
  refine hasSub_of_split ("concat" : String).data
    (String.join ((List.range n).map streamLabel)).data
    (("=n=" ++ (toString n ++ ":v=1:a=0[v]")) : String).data
    (concatFilter n).data ?_
  have hsplit : ("concat=n=" : String).data = ("concat" : String).data ++ ("=n=" : String).data := by
    decide
  simp [concatFilter, String.data_append, hsplit, List.append_assoc]

/-- Claim C5: for an N-image request the composed job declares duration
exactly N times the per-image duration of 3 seconds, its filter array
holds exactly one entry containing a concat node, and that entry is the
last one, referencing the N intermediate streams in ascending ordinal
order with n set to N. -/
theorem c5_duration_and_concat (paths : List String) (outPath : String) (n : Nat)
    (hlen : paths.length = n) (_hn : 1 ≤ n) :
    ("-t " ++ toString (n * 3)) ∈ (imageSeqJob paths outPath).outputOptions ∧
    ((imageSeqJob paths outPath).complexFilter.filter
        (fun s => hasSub ("concat" : String).data s.data)).length = 1 ∧
    (imageSeqJob paths outPath).complexFilter.getLast? = some (orderedConcatNode n) := by
  subst hlen
  refine ⟨?_, ?_, ?_⟩
  · simp [imageSeqJob]
  · simp only [imageSeqJob, imageSeqComplexFilter, List.filter_append]
    have h1 : (spreadChars (String.join ((List.range paths.length).map scalePadFilter))).filter
        (fun s => hasSub ("concat" : String).data s.data) = [] := by
      apply List.filter_eq_nil_iff.mpr
      intro x hx
      have hx1 := mem_spreadChars_length hx
      have hfalse := hasSub_eq_false_of_lt x.data ("concat" : String).data (by rw [hx1]; decide)
      simp [hfalse]
    have h2 : hasSub ("concat" : String).data (concatFilter paths.length).data = true :=
      hasSub_concatFilter _
    simp [h1, h2]
  · simp only [imageSeqJob, imageSeqComplexFilter]
    rw [List.getLast?_concat]
    rfl

/-- Claim C5 witness at a concrete three-image request. -/
theorem c5_duration_and_concat_witness :
    ("-t " ++ toString (3 * 3)) ∈ (imageSeqJob ["a", "b", "c"] "out.mp4").outputOptions ∧
    ((imageSeqJob ["a", "b", "c"] "out.mp4").complexFilter.filter
        (fun s => hasSub ("concat" : String).data s.data)).length = 1 ∧
    (imageSeqJob ["a", "b", "c"] "out.mp4").complexFilter.getLast? = some (orderedConcatNode 3) :=
  c5_duration_and_concat ["a", "b", "c"] "out.mp4" 3 rfl (by decide)

/-! ## Claim C6: fail-fast fetch aborts the batch -/

/-- Claim C6: when the fetch of any image of the batch answers a non-ok
response, the handler throws on the first such index, answers 500 with
the fetch error message and never attempts an encode. -/
theorem c6_fail_fast (env : SeqEnv) (req : ImageSeqRequest) (imgs : List String)
    (himgs : req.images = some imgs) (i : Nat) (hi : i < imgs.length)
    (hbad : env.fetchOk i = false) :
    (seqPipeline env req).encodeAttempted = false ∧
    ∃ j, j < imgs.length ∧ env.fetchOk j = false ∧
      (seqPipeline env req).response = HttpResp.json 500 ⟨none, some (fetchFailMsg j), none⟩ := by
  have hlen : (req.images.getD []).length = imgs.length := by rw [himgs]; rfl
  have hne : ¬((req.images.getD []).length = 0) := by rw [hlen]; omega
  obtain ⟨j, hj, hbadj, herr⟩ :=
    downloadGo_error_of_bad env.fetchOk (workDir env.now) (req.images.getD []).length 0
      ⟨i, by rw [hlen]; exact hi, by simpa using hbad⟩
  simp only [Nat.zero_add] at hj hbadj herr
  rw [hlen] at hj
  constructor
  · simp only [seqPipeline, downloadImages, if_neg hne, herr]
  · exact ⟨j, hj, hbadj, by simp only [seqPipeline, downloadImages, if_neg hne, herr]⟩

/-- Claim C6 witness: a concrete 404 on the second of three images. -/
theorem c6_fail_fast_witness :
    (seqPipeline seqEnvFetch404 seqReqABC).encodeAttempted = false ∧
    ∃ j, j < (["https://x/a.jpg", "https://x/b.jpg", "https://x/c.jpg"] : List String).length ∧
      seqEnvFetch404.fetchOk j = false ∧
      (seqPipeline seqEnvFetch404 seqReqABC).response =
        HttpResp.json 500 ⟨none, some (fetchFailMsg j), none⟩ :=
  c6_fail_fast seqEnvFetch404 seqReqABC
    ["https://x/a.jpg", "https://x/b.jpg", "https://x/c.jpg"] rfl 1 (by decide) (by decide)

/-! ## Claim C7: the background download -/

theorem overlayOutputPath_ne_bg (vid : String) : overlayOutputPath vid ≠ bgVideoPath := by
  intro h
  have hlen := congrArg (fun s : String => s.data.length) h
  simp only [overlayOutputPath, outputFileName, bgVideoPath, TMP_DIR, String.data_append,
    List.length_append] at hlen
  have h1 : ("__dirname/temp" : String).data.length = 14 := rfl
  have h2 : ("/" : String).data.length = 1 := rfl
  have h3 : ("-final-video.mp4" : String).data.length = 16 := rfl
  have h4 : ("/bg.mp4" : String).data.length = 7 := rfl
  rw [h1, h2, h3, h4] at hlen
  omega

/-- Claim C7: in every environment and for every request, the
text-overlay service issues no fetch of the background video at all and
never writes the background-video file — the download step only logs.
This contradicts the claim that a streaming GET is issued and its body
written to the workspace before encoding begins. -/
theorem c7_download_stub (env : OverlayEnv) (req : TextOverlayRequest) :
    (overlayPipeline env req).fetchIssued = false ∧
    ∀ p ∈ (overlayPipeline env req).filesCreated, p ≠ bgVideoPath := by
  simp only [overlayPipeline]
  split
  · exact ⟨rfl, by intro p hp; simp at hp⟩
  · rcases env.encode with msg | u
    · exact ⟨rfl, by intro p hp; simp at hp⟩
    · rcases env.s3 with msg | loc <;>
      · refine ⟨rfl, ?_⟩
        intro p hp
        rcases List.mem_singleton.mp hp with rfl
        exact overlayOutputPath_ne_bg _

/-- Claim C7 witness at a concrete valid request. -/
theorem c7_download_stub_witness :
    (overlayPipeline envOk reqHello).fetchIssued = false :=
  (c7_download_stub envOk reqHello).1

/-! ## Claim C8: output shape of the two modes -/

/-- Claim C8 counterexample: the image-sequence job declares no audio
codec at all and its concat node is video-only, so the image-sequence
output shape carries no AAC audio stream. -/
theorem c8_no_audio_counterexample :
    (imageSeqJob ["p"] "o").audioCodec = none ∧
    "[v0]concat=n=1:v=1:a=0[v]" ∈ (imageSeqJob ["p"] "o").complexFilter := by
  decide

/-- Claim C8 amended: both modes force libx264 video and the yuv420p
pixel format; the text-overlay mode additionally forces aac audio while
the image-sequence mode declares no audio codec and a video-only concat,
so the two modes do not share one output shape in the audio track. -/
theorem c8_output_shape_amended :
    (∀ (title bgPath outPath : String),
      (overlayJob title bgPath outPath).videoCodec = some "libx264" ∧
      (overlayJob title bgPath outPath).audioCodec = some "aac" ∧
      "-pix_fmt yuv420p" ∈ (overlayJob title bgPath outPath).outputOptions) ∧
    (∀ (paths : List String) (outPath : String),
      (imageSeqJob paths outPath).videoCodec = some "libx264" ∧
      (imageSeqJob paths outPath).audioCodec = none ∧
      "-pix_fmt yuv420p" ∈ (imageSeqJob paths outPath).outputOptions) := by
  constructor
  · intro title bgPath outPath
    refine ⟨rfl, rfl, ?_⟩
    simp [overlayJob]
  · intro paths outPath
    refine ⟨rfl, rfl, ?_⟩
    simp [imageSeqJob]

/-! ## Claim C9: the uniform response envelope -/

/-- Claim C9 counterexample: the image-sequence validation failure
answers a JSON body whose success field is absent, not set to false. -/
theorem c9_envelope_counterexample :
    (seqPipeline seqEnvOk (ImageSeqRequest.mk (some []) none)).response =
      HttpResp.json 400 ⟨none, some "No images provided", none⟩ := by
  decide

/-- Claim C9 amended: the text-overlay service always answers the
uniform envelope (success true with a URL, or success false with an
error); the image-sequence service streams raw MP4 on success and on
every failure answers an error-only body with no success field. -/
theorem c9_envelope_amended :
    (∀ (env : OverlayEnv) (req : TextOverlayRequest), ∃ st b,
      (overlayPipeline env req).response = HttpResp.json st b ∧
      ((b.success = some true ∧ b.error = none ∧ ∃ u, b.videoUrl = some u) ∨
       (b.success = some false ∧ b.videoUrl = none ∧ ∃ m, b.error = some m))) ∧
    (∀ (env : SeqEnv) (req : ImageSeqRequest),
      (seqPipeline env req).response = HttpResp.mp4Stream ∨
      ∃ st b, (seqPipeline env req).response = HttpResp.json st b ∧
        b.success = none ∧ b.videoUrl = none ∧ ∃ m, b.error = some m) := by
  constructor
  · intro env req
    simp only [overlayPipeline]
    split
    · exact ⟨400, _, rfl, Or.inr ⟨rfl, rfl, _, rfl⟩⟩
    · rcases env.encode with msg | u
      · exact ⟨500, _, rfl, Or.inr ⟨rfl, rfl, _, rfl⟩⟩
      · rcases env.s3 with msg | loc
        · exact ⟨500, _, rfl, Or.inr ⟨rfl, rfl, _, rfl⟩⟩
        · exact ⟨200, _, rfl, Or.inl ⟨rfl, rfl, _, rfl⟩⟩
  · intro env req
    simp only [seqPipeline, downloadImages]
    split
    · exact Or.inr ⟨400, _, rfl, rfl, rfl, _, rfl⟩
    · split
      · exact Or.inr ⟨500, _, rfl, rfl, rfl, _, rfl⟩
      · split
        · exact Or.inr ⟨500, _, rfl, rfl, rfl, _, rfl⟩
        · exact Or.inl rfl

/-! ## Claim C10: deterministic job composition -/

theorem seqPipeline_job_shape (env : SeqEnv) (req : ImageSeqRequest) (j : FfmpegJob)
    (h : (seqPipeline env req).job = some j) :
    ∃ paths : List String, paths.length = (req.images.getD []).length ∧
      j = imageSeqJob paths (workDir env.now ++ "/output.mp4") := by
  simp only [seqPipeline, downloadImages] at h
  split at h
  · simp at h
  · split at h
    · simp at h
    next paths hok =>
      have hlen := downloadGo_ok_length env.fetchOk (workDir env.now) _ 0 paths hok
      split at h <;>
        (simp only [Option.some.injEq] at h; exact ⟨paths, hlen, h.symm⟩)

theorem overlayPipeline_job_shape (env : OverlayEnv) (req : TextOverlayRequest) (j : FfmpegJob)
    (h : (overlayPipeline env req).job = some j) :
    j = overlayJob (jsString req.title) bgVideoPath (overlayOutputPath (jsString req.videoId)) := by
  simp only [overlayPipeline] at h
  split at h
  · simp at h
  · split at h
    · simp only [Option.some.injEq] at h
      exact h.symm
    · split at h <;> (simp only [Option.some.injEq] at h; exact h.symm)

theorem map_snd_pair_const (l : List String) :
    (l.map (fun p => (p, some 3))).map Prod.snd = List.replicate l.length (some (3 : Nat)) := by
  induction l with
  | nil => rfl
  | cons a l ih => simp [ih, List.replicate_succ]

/-- Claim C10: whenever two runs of the same request body both reach job
composition, the composed jobs agree on input count, per-input loop
durations, the filter-graph expression (character for character) and the
output options; in the text-overlay mode the whole job is identical.
The ambient clock, fetch, encoder and storage outcomes play no part. -/
theorem c10_deterministic_composition :
    (∀ (e1 e2 : SeqEnv) (req : ImageSeqRequest) (j1 j2 : FfmpegJob),
      (seqPipeline e1 req).job = some j1 → (seqPipeline e2 req).job = some j2 →
      j1.inputs.length = j2.inputs.length ∧
      j1.inputs.map Prod.snd = j2.inputs.map Prod.snd ∧
      j1.complexFilter = j2.complexFilter ∧
      j1.outputOptions = j2.outputOptions) ∧
    (∀ (e1 e2 : OverlayEnv) (req : TextOverlayRequest) (j1 j2 : FfmpegJob),
      (overlayPipeline e1 req).job = some j1 → (overlayPipeline e2 req).job = some j2 →
      j1 = j2) := by
  constructor
  · intro e1 e2 req j1 j2 h1 h2
    obtain ⟨p1, hl1, rfl⟩ := seqPipeline_job_shape e1 req j1 h1
    obtain ⟨p2, hl2, rfl⟩ := seqPipeline_job_shape e2 req j2 h2
    have hl : p1.length = p2.length := by rw [hl1, hl2]
    refine ⟨?_, ?_, ?_, ?_⟩
    · simp [imageSeqJob, hl]
    · simp only [imageSeqJob]
      rw [map_snd_pair_const, map_snd_pair_const, hl]
    · simp only [imageSeqJob]
      rw [hl]
    · simp only [imageSeqJob]
      rw [hl]
  · intro e1 e2 req j1 j2 h1 h2
    rw [overlayPipeline_job_shape e1 req j1 h1, overlayPipeline_job_shape e2 req j2 h2]

set_option maxRecDepth 8192 in
/-- Claim C10 witness: two concrete runs of one request at different
clock values and stage outcomes compose character-identical filter
graphs. -/
theorem c10_deterministic_composition_witness :
    (imageSeqJob [imagePath (workDir 1111) 0, imagePath (workDir 1111) 1]
        (workDir 1111 ++ "/output.mp4")).complexFilter =
      (imageSeqJob [imagePath (workDir 2222) 0, imagePath (workDir 2222) 1]
        (workDir 2222 ++ "/output.mp4")).complexFilter :=
  (c10_deterministic_composition.1 seqEnvOk seqEnvLater seqReqAB
      (imageSeqJob [imagePath (workDir 1111) 0, imagePath (workDir 1111) 1]
        (workDir 1111 ++ "/output.mp4"))
      (imageSeqJob [imagePath (workDir 2222) 0, imagePath (workDir 2222) 1]
        (workDir 2222 ++ "/output.mp4"))
      (by decide) (by decide)).2.2.1

end Render

